import Mathlib

/-!
Verification development for the VAS (Video Analytics System) repository.

The repository's frontend (src/frontend/components/VideoStream.tsx,
src/frontend/components/ModernVideoStream.tsx, and the zone-aware stream
component in src/unnamed/part_002) is embedded shallowly below: the
WebSocket `onmessage` / `onclose` handlers become pure state-transition
functions, with the wall-clock comparisons (`Date.now()` throttling and
FPS windows) abstracted into boolean parameters, and outbound
`websocket.send` calls collected into an explicit output list.

The Python backend (detection adapter, tracker, zone rule engine) is not
part of src/; where a claim depends on it, the relevant operation is
modelled from the spec and marked as such in its doc comment.
-/

/-- A detection, per the `Detection` interface shared by all three stream
components: `{class, confidence, bbox, alert}`.  The `class` field is named
`cls` because `class` is a Lean keyword.  Confidences and coordinates are
rationals. -/
structure Detection where
  cls : String
  confidence : ℚ
  bbox : ℚ × ℚ × ℚ × ℚ
  alert : Bool
deriving Repr, DecidableEq

/-- A tracking event, per the `TrackingEvent` interface of part_002 and
ModernVideoStream.tsx: optional fields model the optional TS fields. -/
structure TrackingEvent where
  type : String
  track_id : Option Nat
  in_count : Option Nat
  out_count : Option Nat
  violations : Option (List String)
  position : Option (ℚ × ℚ)
  timestamp : ℚ
deriving Repr, DecidableEq

/-- Zone payload of a `video_frame` message (`zones` field of the
`VideoMessage` interface). -/
structure Zones where
  entry_line_start : ℚ × ℚ
  entry_line_end : ℚ × ℚ
  work_zone_points : List (ℚ × ℚ)
  show_zones : Bool
  tracking_enabled : Bool
deriving Repr, DecidableEq

/-- An inbound WebSocket message, per the `VideoMessage` interface.  The
optional `zones` / `tracking_events` fields match the TS optional fields. -/
structure VideoMessage where
  type : String
  timestamp : ℚ
  frame : String
  detections : List Detection
  zones : Option Zones
  tracking_events : Option (List TrackingEvent)
deriving Repr, DecidableEq

/-- An outbound message sent on the socket; the only one the clients send is
the pong reply, built in TS as `JSON.stringify({type:'pong'})`. -/
structure OutMsg where
  type : String
deriving Repr, DecidableEq

/-- A WebSocket close event (`event.code`, `event.reason`). -/
structure CloseEvent where
  code : Nat
  reason : String
deriving Repr, DecidableEq

/-- Displayed people count, per the `peopleCount` state
`{ in: number, out: number }` of part_002 and ModernVideoStream.tsx.
Also reused for the spec-modelled zone-engine counters, which carry the
same two fields. -/
structure Counts where
  in_count : Nat
  out_count : Nat
deriving Repr, DecidableEq

/-- Componentwise order on people counts / crossing counters. -/
def countsLe (a b : Counts) : Prop :=
  a.in_count ≤ b.in_count ∧ a.out_count ≤ b.out_count

instance (a b : Counts) : Decidable (countsLe a b) := instDecidableAnd

/-- State of the basic `VideoStream.tsx` component: the `useState` hooks
plus the refs its handlers read (`imgRef.current.src`, `frameCountRef`). -/
structure BasicState where
  isConnected : Bool
  detections : List Detection
  lastUpdate : Option ℚ
  frameRate : Nat
  imgSrc : Option String
  frameCount : Nat
deriving Repr, DecidableEq

/-- State of the zone-aware stream component (src/unnamed/part_002) and of
`ModernVideoStream.tsx`, which declare the same `useState` hooks:
connection flag, detections, last update, frame rate, zones, tracking
events, people count, plus the image ref and frame counter ref. -/
structure ZoneState where
  isConnected : Bool
  detections : List Detection
  lastUpdate : Option ℚ
  frameRate : Nat
  zones : Option Zones
  trackingEvents : List TrackingEvent
  peopleCount : Counts
  imgSrc : Option String
  frameCount : Nat
deriving Repr, DecidableEq

/-- Initial state of `VideoStream.tsx` (the `useState` initial values). -/
def basicInit : BasicState :=
  { isConnected := false, detections := [], lastUpdate := none,
    frameRate := 0, imgSrc := none, frameCount := 0 }

/-- Initial state of the zone-aware component / ModernVideoStream
(the `useState` initial values: `[]`, `0`, `null`, `{in:0,out:0}`). -/
def zoneInit : ZoneState :=
  { isConnected := false, detections := [], lastUpdate := none,
    frameRate := 0, zones := none, trackingEvents := [],
    peopleCount := ⟨0, 0⟩, imgSrc := none, frameCount := 0 }

/-- `onmessage` of `VideoStream.tsx` (src/frontend/components, lines
54-89).  `throttleOpen` abstracts `now - lastFrameTimeRef.current >= 100`,
`fpsElapsed` abstracts the 1000 ms FPS window, `wsOpen` abstracts
`websocketRef.current?.readyState === WebSocket.OPEN`.  Returns the new
state and the list of messages sent on the socket. -/
def basicOnMessage (st : BasicState) (msg : VideoMessage)
    (throttleOpen fpsElapsed wsOpen : Bool) : BasicState × List OutMsg :=
  if msg.type = "video_frame" then
    let s := { st with imgSrc := some ("data:image/jpeg;base64," ++ msg.frame) }
    let s := if throttleOpen then
      { s with detections := msg.detections, lastUpdate := some msg.timestamp }
    else s
    let s := { s with frameCount := s.frameCount + 1 }
    (if fpsElapsed then { s with frameRate := s.frameCount, frameCount := 0 } else s, [])
  else if msg.type = "ping" then
    (st, if wsOpen then [{ type := "pong" }] else [])
  else
    (st, [])

/-- The tracking-events / people-count update of part_002's throttled
branch (lines 96-105): prepend the message's events, keep the last 10,
and refresh the people count from the last `line_crossing` event
(`latest.in_count || 0`, `latest.out_count || 0`). -/
def zoneApplyEvents (s : ZoneState) (evs : List TrackingEvent) : ZoneState :=
  let s := { s with trackingEvents := (evs ++ s.trackingEvents).take 10 }
  match (evs.filter fun e => e.type == "line_crossing").getLast? with
  | some latest =>
      { s with peopleCount := ⟨latest.in_count.getD 0, latest.out_count.getD 0⟩ }
  | none => s

/-- The throttled UI update of part_002 (executed when
`now - lastFrameTimeRef.current >= 100`): detections, last update, zones
when present, and events when present and non-empty. -/
def zoneThrottled (s : ZoneState) (msg : VideoMessage) : ZoneState :=
  let s := { s with detections := msg.detections, lastUpdate := some msg.timestamp }
  let s := match msg.zones with
    | some z => { s with zones := some z }
    | none => s
  match msg.tracking_events with
  | some evs => if 0 < evs.length then zoneApplyEvents s evs else s
  | none => s

/-- The frame-rate bookkeeping (`frameCountRef.current++` and the
1000 ms FPS window) shared by the components. -/
def zoneFrameTick (s : ZoneState) (fpsElapsed : Bool) : ZoneState :=
  let s := { s with frameCount := s.frameCount + 1 }
  if fpsElapsed then { s with frameRate := s.frameCount, frameCount := 0 } else s

/-- `onmessage` of the zone-aware stream component (src/unnamed/part_002,
lines 76-124): set the image source for every `video_frame`, apply the
throttled UI update, do the FPS bookkeeping, and answer `ping` with a pong
when the socket is open. -/
def zoneOnMessage (st : ZoneState) (msg : VideoMessage)
    (throttleOpen fpsElapsed wsOpen : Bool) : ZoneState × List OutMsg :=
  if msg.type = "video_frame" then
    let s := { st with imgSrc := some ("data:image/jpeg;base64," ++ msg.frame) }
    let s := if throttleOpen then zoneThrottled s msg else s
    (zoneFrameTick s fpsElapsed, [])
  else if msg.type = "ping" then
    (st, if wsOpen then [{ type := "pong" }] else [])
  else
    (st, [])

/-- The throttled update of `ModernVideoStream.tsx` (lines 124-144): same
shape as part_002 but keeps only the last 5 events (`slice(0, 5)`). -/
def modernThrottled (s : ZoneState) (msg : VideoMessage) : ZoneState :=
  let s := { s with detections := msg.detections, lastUpdate := some msg.timestamp }
  let s := match msg.zones with
    | some z => { s with zones := some z }
    | none => s
  match msg.tracking_events with
  | some evs =>
      if 0 < evs.length then
        let s := { s with trackingEvents := (evs ++ s.trackingEvents).take 5 }
        match (evs.filter fun e => e.type == "line_crossing").getLast? with
        | some latest =>
            { s with peopleCount := ⟨latest.in_count.getD 0, latest.out_count.getD 0⟩ }
        | none => s
      else s
  | none => s

/-- `onmessage` of `ModernVideoStream.tsx` (lines 107-159): only
`video_frame` messages are handled; the component has no `ping` branch and
never sends anything on the socket.  The `onStatsUpdate` parent callback
is outside the embedded state.  The FPS value is abstracted as the frame
count at window close (the TS rounds count / elapsed-seconds). -/
def modernOnMessage (st : ZoneState) (msg : VideoMessage)
    (throttleOpen fpsElapsed : Bool) : ZoneState × List OutMsg :=
  if msg.type = "video_frame" then
    let s := { st with imgSrc := some ("data:image/jpeg;base64," ++ msg.frame) }
    let s := zoneFrameTick s fpsElapsed
    let s := if throttleOpen then modernThrottled s msg else s
    (s, [])
  else
    (st, [])

/-- `onclose` of `VideoStream.tsx` (lines 91-99): clear connection flag,
detections and frame rate, and schedule one reconnect via
`setTimeout(connectWebSocket, 3000)`.  The returned list holds the delays
(in ms) of the reconnection attempts scheduled by this handler. -/
def basicOnClose (st : BasicState) (_ev : CloseEvent) : BasicState × List Nat :=
  ({ st with isConnected := false, detections := [], frameRate := 0 }, [3000])

/-- `onclose` of the zone-aware component (part_002, lines 126-136): also
clears the tracking events and the people count, then schedules one
reconnect after 3000 ms. -/
def zoneOnClose (st : ZoneState) (_ev : CloseEvent) : ZoneState × List Nat :=
  ({ st with isConnected := false, detections := [], frameRate := 0,
             trackingEvents := [], peopleCount := ⟨0, 0⟩ }, [3000])

/-- `onclose` of `ModernVideoStream.tsx` (lines 161-175): same resets as
the zone-aware component, one reconnect after 3000 ms (the
`onStatsUpdate` callback is external). -/
def modernOnClose (st : ZoneState) (_ev : CloseEvent) : ZoneState × List Nat :=
  ({ st with isConnected := false, detections := [], frameRate := 0,
             trackingEvents := [], peopleCount := ⟨0, 0⟩ }, [3000])

/-- The `detectionGroups` reduce of `VideoStream.tsx` (lines 150-158) and
part_002 (lines 187-195): fold the detections into a map from class name
to the detections of that class, appending in input order.  The TS record
is modelled as a total function that is `[]` at absent keys. -/
def detectionGroups (ds : List Detection) : String → List Detection :=
  ds.foldl
    (fun groups d => fun c => if c = d.cls then groups c ++ [d] else groups c)
    (fun _ => [])

/-- `groupByClass` of `ModernVideoStream.tsx` (lines 192-201): textually
the same reduce as `detectionGroups`. -/
def groupByClass (ds : List Detection) : String → List Detection :=
  ds.foldl
    (fun groups d => fun c => if c = d.cls then groups c ++ [d] else groups c)
    (fun _ => [])

/-- Run of the zone-aware component's `onmessage` handler over a sequence
of incoming messages, each paired with the boolean abstractions of its
clock reads (`throttleOpen`, `fpsElapsed`, `wsOpen`). -/
def zoneMsgRun (st : ZoneState) :
    List (VideoMessage × Bool × Bool × Bool) → ZoneState
  | [] => st
  | (m, thr, fps, ws) :: rest => zoneMsgRun (zoneOnMessage st m thr fps ws).1 rest

/-- Modelled from the spec: the backend Detection Adapter is not under
src/ (only the frontend is).  Per spec section 4.3 and the setup docs
(`if conf > 0.50`, top 10 highest-confidence detections per frame),
`detect` keeps the raw detections whose confidence is strictly above
`confidence_threshold`, orders them by descending confidence, and
truncates to the top K = 10. -/
def detect (confidence_threshold : ℚ) (raws : List Detection) : List Detection :=
  (((raws.filter fun d => decide (confidence_threshold < d.confidence)).mergeSort
      fun a b => decide (b.confidence ≤ a.confidence)).take 10)

/-- Modelled from the spec: the Zone Rule Engine's entry line
(`EntryLine{start, end}`); the backend is not under src/. -/
structure EntryLine where
  startPt : ℚ × ℚ
  endPt : ℚ × ℚ
deriving Repr, DecidableEq

/-- One track as presented to the zone rule engine: its id and its
previous and current centroid (spec section 4.4: each track carries at
least previous and current centroid). -/
structure TrackObs where
  id : Nat
  prev : ℚ × ℚ
  curr : ℚ × ℚ
deriving Repr, DecidableEq

/-- Modelled from the spec: the side of the entry line a point lies on,
as the sign of the cross product of the line vector with the vector from
the line start to the point (spec section 4.5). -/
def crossSide (line : EntryLine) (p : ℚ × ℚ) : Int :=
  let vx := line.endPt.1 - line.startPt.1
  let vy := line.endPt.2 - line.startPt.2
  let wx := p.1 - line.startPt.1
  let wy := p.2 - line.startPt.2
  let c := vx * wy - vy * wx
  if 0 < c then 1 else if c < 0 then -1 else 0

/-- Modelled from the spec: the line-crossing rule for one track (spec
section 4.5).  A sign change of the crossing test between the previous
and current centroid increments `in_count` or `out_count` according to
the direction, and emits one `line_crossing` event carrying the updated
counters. -/
def stepTrack (line : EntryLine) (c : Counts) (tr : TrackObs) (ts : ℚ) :
    Counts × Option TrackingEvent :=
  let ps := crossSide line tr.prev
  let cs := crossSide line tr.curr
  if ps * cs < 0 then
    let c' : Counts :=
      if 0 < cs then ⟨c.in_count + 1, c.out_count⟩ else ⟨c.in_count, c.out_count + 1⟩
    (c', some { type := "line_crossing", track_id := some tr.id,
                in_count := some c'.in_count, out_count := some c'.out_count,
                violations := none, position := none, timestamp := ts })
  else
    (c, none)

/-- Modelled from the spec: `evaluate(tracks)` for the line-crossing
rule, iterating `stepTrack` over the tracks of one frame and collecting
the emitted events in order. -/
def evaluate (line : EntryLine) (c : Counts) :
    List TrackObs → ℚ → Counts × List TrackingEvent
  | [], _ => (c, [])
  | tr :: trs, ts =>
      let p := stepTrack line c tr ts
      let r := evaluate line p.1 trs ts
      (r.1, p.2.toList ++ r.2)

/-- One processed frame of the server-to-client pipeline: the tracks the
zone engine sees, the frame timestamp, and the boolean abstractions of
the client's clock reads when the resulting message is handled. -/
structure FrameIn where
  tracks : List TrackObs
  ts : ℚ
  throttleOpen : Bool
  fpsElapsed : Bool
  wsOpen : Bool
deriving Repr

/-- The outbound `video_frame` message carrying the events of one frame
(spec section 6: events derived from a frame are attached to that frame's
message). -/
def frameMessage (ts : ℚ) (evs : List TrackingEvent) : VideoMessage :=
  { type := "video_frame", timestamp := ts, frame := "", detections := [],
    zones := none, tracking_events := some evs }

/-- Modelled from the spec: the composed pipeline for claim C3.  Each
frame is evaluated by the (spec-modelled) zone engine, its events are
attached to that frame's message, and the message is handled by the
zone-aware client component (part_002).  Returns, per frame, the engine
counters after the frame and the client state after the message. -/
def pipeRun (line : EntryLine) (c : Counts) (st : ZoneState) :
    List FrameIn → List (Counts × ZoneState)
  | [] => []
  | f :: fs =>
      let r := evaluate line c f.tracks f.ts
      let st' := (zoneOnMessage st (frameMessage f.ts r.2)
                    f.throttleOpen f.fpsElapsed f.wsOpen).1
      (r.1, st') :: pipeRun line r.1 st' fs

/-- Whether point `p` lies on the closed segment from `a` to `b`. -/
def onSegment (a b p : ℚ × ℚ) : Bool :=
  decide ((b.1 - a.1) * (p.2 - a.2) - (b.2 - a.2) * (p.1 - a.1) = 0) &&
  decide (min a.1 b.1 ≤ p.1) && decide (p.1 ≤ max a.1 b.1) &&
  decide (min a.2 b.2 ≤ p.2) && decide (p.2 ≤ max a.2 b.2)

/-- Modelled from the spec: the standard boundary-inclusive
point-in-polygon test of the Zone Rule Engine (spec section 4.5); the
backend is not under src/.  A point is inside when it lies on a polygon
edge or when a horizontal ray from it crosses the edges an odd number of
times; the ray-edge intersection comparison is written in
cross-multiplied form to stay division-free. -/
def pointInPolygon (pts : List (ℚ × ℚ)) (p : ℚ × ℚ) : Bool :=
  let es := pts.zip (pts.rotate 1)
  (es.any fun e => onSegment e.1 e.2 p) ||
  es.foldl
    (fun acc e =>
      let a := e.1
      let b := e.2
      let t := (b.1 - a.1) * (p.2 - a.2) - (p.1 - a.1) * (b.2 - a.2)
      if (decide (p.2 < a.2) != decide (p.2 < b.2)) &&
          ((decide (0 < b.2 - a.2) && decide (0 < t)) ||
           (decide (b.2 - a.2 < 0) && decide (t < 0))) then
        !acc
      else acc)
    false

/-- One per-frame observation of a single track for the safety rule: its
centroid and the missing-equipment tags derived from its class history. -/
structure ZoneObs where
  pos : ℚ × ℚ
  missing : List String
deriving Repr, DecidableEq

/-- Modelled from the spec: the safety-violation rule of the Zone Rule
Engine for one track and one frame (spec section 4.5).  The boolean flag
is the track's violation state: set when a violation event has been
emitted for the current continuous in-zone episode, cleared when the
track is outside the work zone.  Returns the new flag and the number of
`SafetyViolation` events emitted (0 or 1). -/
def violStep (poly : List (ℚ × ℚ)) (flag : Bool) (o : ZoneObs) : Bool × Nat :=
  if pointInPolygon poly o.pos then
    if !o.missing.isEmpty && !flag then (true, 1) else (flag, 0)
  else
    (false, 0)

/-- Modelled from the spec: the safety-violation rule run over the
successive per-frame observations of one track, counting emitted
`SafetyViolation` events. -/
def violRun (poly : List (ℚ × ℚ)) (flag : Bool) :
    List ZoneObs → Bool × Nat
  | [] => (flag, 0)
  | o :: os =>
      let p := violStep poly flag o
      let r := violRun poly p.1 os
      (r.1, p.2 + r.2)

/-- Modelled from the spec: the Tracker's externally observable id
allocation (spec section 4.4; the backend is not under src/).  A step
either creates a track, which takes the next id from a monotone counter,
or destroys an existing track; destroyed ids are simply removed. -/
inductive TrackOp where
  | create
  | destroy (id : Nat)
deriving Repr, DecidableEq

/-- Tracker state relevant to id allocation: the id counter and the ids
of live tracks. -/
structure TrackerState where
  nextId : Nat
  activeIds : List Nat
deriving Repr, DecidableEq

/-- Modelled from the spec: one tracker step.  Returns the new state and
the ids assigned at this step. -/
def trackStep : TrackerState → TrackOp → TrackerState × List Nat
  | st, .create =>
      ({ nextId := st.nextId + 1, activeIds := st.nextId :: st.activeIds },
       [st.nextId])
  | st, .destroy i => ({ st with activeIds := st.activeIds.erase i }, [])

/-- Modelled from the spec: a pipeline run of the tracker, collecting in
order every id assigned to a newly created track. -/
def trackRun (st : TrackerState) : List TrackOp → TrackerState × List Nat
  | [] => (st, [])
  | op :: ops =>
      let p := trackStep st op
      let r := trackRun p.1 ops
      (r.1, p.2 ++ r.2)

/-! ### Helper lemmas about the client handlers -/

theorem zoneApplyEvents_imgSrc (s : ZoneState) (evs : List TrackingEvent) :
    (zoneApplyEvents s evs).imgSrc = s.imgSrc := by
  unfold zoneApplyEvents
  split <;> rfl

theorem zoneApplyEvents_trackingEvents (s : ZoneState) (evs : List TrackingEvent) :
    (zoneApplyEvents s evs).trackingEvents = (evs ++ s.trackingEvents).take 10 := by
  unfold zoneApplyEvents
  split <;> rfl

theorem zoneThrottled_imgSrc (s : ZoneState) (msg : VideoMessage) :
    (zoneThrottled s msg).imgSrc = s.imgSrc := by
  unfold zoneThrottled
  split <;> split <;> first
    | rfl
    | (rename_i _ _ evs _; by_cases h : 0 < evs.length <;>
        simp [h, zoneApplyEvents_imgSrc])

theorem zoneThrottled_trackingEvents_of_events (s : ZoneState) (msg : VideoMessage)
    (evs : List TrackingEvent) (h : msg.tracking_events = some evs)
    (hne : 0 < evs.length) :
    (zoneThrottled s msg).trackingEvents = (evs ++ s.trackingEvents).take 10 := by
  unfold zoneThrottled
  split <;> simp [h, hne, zoneApplyEvents_trackingEvents]

theorem zoneThrottled_trackingEvents_le (s : ZoneState) (msg : VideoMessage)
    (h : s.trackingEvents.length ≤ 10) :
    (zoneThrottled s msg).trackingEvents.length ≤ 10 := by
  unfold zoneThrottled
  split <;> split <;> first
    | simpa using h
    | (rename_i _ _ evs _; by_cases hne : 0 < evs.length <;>
        simp [hne, zoneApplyEvents_trackingEvents, h,
          List.length_take_le, Nat.min_le_left])

theorem zoneFrameTick_imgSrc (s : ZoneState) (fps : Bool) :
    (zoneFrameTick s fps).imgSrc = s.imgSrc := by
  unfold zoneFrameTick
  cases fps <;> rfl

theorem zoneFrameTick_trackingEvents (s : ZoneState) (fps : Bool) :
    (zoneFrameTick s fps).trackingEvents = s.trackingEvents := by
  unfold zoneFrameTick
  cases fps <;> rfl

theorem zoneFrameTick_peopleCount (s : ZoneState) (fps : Bool) :
    (zoneFrameTick s fps).peopleCount = s.peopleCount := by
  unfold zoneFrameTick
  cases fps <;> rfl

theorem modernThrottled_imgSrc (s : ZoneState) (msg : VideoMessage) :
    (modernThrottled s msg).imgSrc = s.imgSrc := by
  unfold modernThrottled
  split <;> split <;> try rfl
  all_goals split
  all_goals try rfl
  all_goals split <;> rfl

/-- A concrete ping message, as the server's heartbeat would deliver it. -/
def pingMsgEx : VideoMessage :=
  { type := "ping", timestamp := 0, frame := "", detections := [],
    zones := none, tracking_events := none }

/-! ### Claims C1, C2, C6, C9 -/

/-- C1 (amended): in `VideoStream.tsx` and the zone-aware stream component
(part_002), a message of type ping received while the WebSocket is open
triggers exactly one pong reply, a ping received while the socket is not
open triggers nothing, and no other message type triggers a pong; the
`ModernVideoStream.tsx` component has no ping handler and never sends any
message. -/
theorem C1_ping_pong_amended (stB : BasicState) (stZ : ZoneState)
    (msg : VideoMessage) (thr fps ws : Bool) :
    (msg.type = "ping" →
        (basicOnMessage stB msg thr fps true).2 = [OutMsg.mk ("pong")]
      ∧ (zoneOnMessage stZ msg thr fps true).2 = [OutMsg.mk ("pong")]
      ∧ (basicOnMessage stB msg thr fps false).2 = []
      ∧ (zoneOnMessage stZ msg thr fps false).2 = [])
  ∧ (msg.type ≠ "ping" →
        (basicOnMessage stB msg thr fps ws).2 = []
      ∧ (zoneOnMessage stZ msg thr fps ws).2 = [])
  ∧ (modernOnMessage stZ msg thr fps).2 = [] := by
  refine ⟨fun hp => ?_, fun hp => ?_, ?_⟩
  · have hv : ¬ msg.type = "video_frame" := by rw [hp]; decide
    simp [basicOnMessage, zoneOnMessage, hv, hp]
  · by_cases hv : msg.type = "video_frame" <;>
      simp [basicOnMessage, zoneOnMessage, hv, hp]
  · by_cases hv : msg.type = "video_frame" <;> simp [modernOnMessage, hv]

/-- C1 counterexample: `ModernVideoStream.tsx` does not answer a ping
received while the connection is open — its handler sends no pong, so the
claim is false for that client stream component. -/
theorem C1_ping_pong_counterexample :
    OutMsg.mk ("pong") ∉ (modernOnMessage zoneInit pingMsgEx true true).2 := by
  simp [modernOnMessage, pingMsgEx]

/-- C1 witness: concrete ping answered by pong in the two components that
implement the heartbeat. -/
theorem C1_ping_pong_witness :
    (basicOnMessage basicInit pingMsgEx true true true).2 = [OutMsg.mk ("pong")]
  ∧ (zoneOnMessage zoneInit pingMsgEx true true true).2 = [OutMsg.mk ("pong")] := by
  have h := C1_ping_pong_amended basicInit zoneInit pingMsgEx true true true
  exact ⟨(h.1 rfl).1, (h.1 rfl).2.1⟩

/-- C2: every close event, regardless of code or reason, makes each of the
three client stream components schedule exactly one reconnection attempt,
with a fixed delay of 3000 ms. -/
theorem C2_reconnect_delay (stB : BasicState) (stZ stM : ZoneState)
    (ev : CloseEvent) :
    (basicOnClose stB ev).2 = [3000]
  ∧ (zoneOnClose stZ ev).2 = [3000]
  ∧ (modernOnClose stM ev).2 = [3000] :=
  ⟨rfl, rfl, rfl⟩

/-- C6: every `video_frame` message sets the displayed image source to the
base64 JPEG data URL built from the message's frame field — in all three
components, whether or not the throttled UI update runs — and any message
of another type leaves the displayed image unchanged. -/
theorem C6_video_frame_src (stB : BasicState) (stZ stM : ZoneState)
    (msg : VideoMessage) (thr fps ws : Bool) :
    (msg.type = "video_frame" →
        (basicOnMessage stB msg thr fps ws).1.imgSrc
          = some ("data:image/jpeg;base64," ++ msg.frame)
      ∧ (zoneOnMessage stZ msg thr fps ws).1.imgSrc
          = some ("data:image/jpeg;base64," ++ msg.frame)
      ∧ (modernOnMessage stM msg thr fps).1.imgSrc
          = some ("data:image/jpeg;base64," ++ msg.frame))
  ∧ (msg.type ≠ "video_frame" →
        (basicOnMessage stB msg thr fps ws).1.imgSrc = stB.imgSrc
      ∧ (zoneOnMessage stZ msg thr fps ws).1.imgSrc = stZ.imgSrc
      ∧ (modernOnMessage stM msg thr fps).1.imgSrc = stM.imgSrc) := by
  constructor
  · intro hv
    refine ⟨?_, ?_, ?_⟩
    · cases thr <;> cases fps <;> simp [basicOnMessage, hv]
    · cases thr <;> cases fps <;>
        simp [zoneOnMessage, hv, zoneFrameTick_imgSrc, zoneThrottled_imgSrc]
    · cases thr <;> cases fps <;>
        simp [modernOnMessage, hv, zoneFrameTick_imgSrc, modernThrottled_imgSrc]
  · intro hv
    by_cases hp : msg.type = "ping" <;>
      simp [basicOnMessage, zoneOnMessage, modernOnMessage, hv, hp]

/-- C6 witness: a concrete `video_frame` message updates the image source
in all three components, and a concrete ping leaves it unchanged. -/
theorem C6_video_frame_src_witness :
    (basicOnMessage basicInit (frameMessage 0 []) false false true).1.imgSrc
      = some ("data:image/jpeg;base64,")
  ∧ (basicOnMessage basicInit pingMsgEx true true true).1.imgSrc
      = basicInit.imgSrc := by
  have h1 := C6_video_frame_src basicInit zoneInit zoneInit
    (frameMessage 0 []) false false true
  have h2 := C6_video_frame_src basicInit zoneInit zoneInit
    pingMsgEx true true true
  exact ⟨(h1.1 rfl).1, (h2.2 (by decide)).1⟩

/-- C9: on a close event each component clears its stream-derived state in
the close handler itself: connection flag down, detections emptied, frame
rate zeroed, and — in the two components that track them — tracking
events emptied and the people count reset to zero. -/
theorem C9_close_resets (stB : BasicState) (stZ stM : ZoneState)
    (ev : CloseEvent) :
    ((basicOnClose stB ev).1.isConnected = false
      ∧ (basicOnClose stB ev).1.detections = []
      ∧ (basicOnClose stB ev).1.frameRate = 0)
  ∧ ((zoneOnClose stZ ev).1.isConnected = false
      ∧ (zoneOnClose stZ ev).1.detections = []
      ∧ (zoneOnClose stZ ev).1.frameRate = 0
      ∧ (zoneOnClose stZ ev).1.trackingEvents = []
      ∧ (zoneOnClose stZ ev).1.peopleCount = ⟨0, 0⟩)
  ∧ ((modernOnClose stM ev).1.isConnected = false
      ∧ (modernOnClose stM ev).1.detections = []
      ∧ (modernOnClose stM ev).1.frameRate = 0
      ∧ (modernOnClose stM ev).1.trackingEvents = []
      ∧ (modernOnClose stM ev).1.peopleCount = ⟨0, 0⟩) :=
  ⟨⟨rfl, rfl, rfl⟩, ⟨rfl, rfl, rfl, rfl, rfl⟩, ⟨rfl, rfl, rfl, rfl, rfl⟩⟩

/-! ### Claim C8: bounded, newest-first tracking-events list -/

theorem zoneOnMessage_trackingEvents_le (st : ZoneState) (msg : VideoMessage)
    (thr fps ws : Bool) (h : st.trackingEvents.length ≤ 10) :
    (zoneOnMessage st msg thr fps ws).1.trackingEvents.length ≤ 10 := by
  unfold zoneOnMessage
  by_cases hv : msg.type = "video_frame"
  · cases thr <;>
      simp [hv, zoneFrameTick_trackingEvents, h, zoneThrottled_trackingEvents_le]
  · by_cases hp : msg.type = "ping" <;> simp [hv, hp, h]

theorem zoneMsgRun_trackingEvents_le
    (inputs : List (VideoMessage × Bool × Bool × Bool)) :
    ∀ st : ZoneState, st.trackingEvents.length ≤ 10 →
      (zoneMsgRun st inputs).trackingEvents.length ≤ 10 := by
  induction inputs with
  | nil => intro st h; exact h
  | cons p rest ih =>
      intro st h
      obtain ⟨m, thr, fps, ws⟩ := p
      exact ih _ (zoneOnMessage_trackingEvents_le st m thr fps ws h)

/-- C8: in the zone-aware stream component, after any sequence of incoming
messages the stored tracking-events list has at most 10 entries; and
whenever a `video_frame` message with a non-empty events list is processed
while the throttled update runs, the stored list becomes the message's
events followed by the previously stored ones, truncated to 10 — newest
first. -/
theorem C8_events_newest_first :
    (∀ inputs : List (VideoMessage × Bool × Bool × Bool),
        (zoneMsgRun zoneInit inputs).trackingEvents.length ≤ 10)
  ∧ (∀ (st : ZoneState) (msg : VideoMessage) (fps ws : Bool)
        (evs : List TrackingEvent),
      msg.type = "video_frame" → msg.tracking_events = some evs →
      0 < evs.length →
      (zoneOnMessage st msg true fps ws).1.trackingEvents
        = (evs ++ st.trackingEvents).take 10) := by
  constructor
  · intro inputs
    exact zoneMsgRun_trackingEvents_le inputs zoneInit (by simp [zoneInit])
  · intro st msg fps ws evs hv hte hne
    unfold zoneOnMessage
    simp [hv, zoneFrameTick_trackingEvents,
      zoneThrottled_trackingEvents_of_events _ _ _ hte hne]

/-- A concrete tracking event for witnesses. -/
def crossingEvEx : TrackingEvent :=
  { type := "line_crossing", track_id := some 7, in_count := some 1,
    out_count := some 0, violations := none, position := none, timestamp := 1 }

/-- A concrete `video_frame` message carrying one tracking event. -/
def frameMsgEx : VideoMessage := frameMessage 1 [crossingEvEx]

/-- C8 witness: the bound and the newest-first update at concrete inputs. -/
theorem C8_events_newest_first_witness :
    (zoneMsgRun zoneInit [(frameMsgEx, true, false, true)]).trackingEvents.length ≤ 10
  ∧ (zoneOnMessage zoneInit frameMsgEx true false true).1.trackingEvents
      = ([crossingEvEx] ++ zoneInit.trackingEvents).take 10 :=
  ⟨C8_events_newest_first.1 [(frameMsgEx, true, false, true)],
   C8_events_newest_first.2 zoneInit frameMsgEx false true [crossingEvEx]
     rfl rfl (by decide)⟩

/-! ### Claim C10: grouping detections by class is a partition -/

theorem detectionGroups_foldl (ds : List Detection) :
    ∀ (g : String → List Detection) (c : String),
      ds.foldl
        (fun groups d => fun c => if c = d.cls then groups c ++ [d] else groups c)
        g c
      = g c ++ ds.filter (fun d => decide (d.cls = c)) := by
  induction ds with
  | nil => intro g c; simp
  | cons d ds ih =>
      intro g c
      simp only [List.foldl_cons, List.filter_cons]
      rw [ih]
      by_cases h : c = d.cls
      · simp [h, List.append_assoc]
      · have h' : ¬ d.cls = c := fun hc => h hc.symm
        simp [h, h']

theorem detectionGroups_eq_filter (ds : List Detection) (c : String) :
    detectionGroups ds c = ds.filter (fun d => decide (d.cls = c)) := by
  unfold detectionGroups
  rw [detectionGroups_foldl]
  simp

theorem detection_count_aux (ds : List Detection) (c : String) :
    (ds.filter fun d => decide (d.cls = c)).length
      = (ds.map fun d => d.cls).count c := by
  rw [← List.countP_eq_length_filter, List.count_eq_countP, List.countP_map]
  apply List.countP_congr
  intro d _
  by_cases h : d.cls = c <;> simp [Function.comp, h]

/-- C10: grouping detections by their class field partitions the input
list.  The group at key `c` is exactly the sublist of input detections of
class `c` in input order; every detection lies in the group of its own
class and in no other; and the group sizes over the classes present sum
to the input length.  `groupByClass` of ModernVideoStream.tsx computes
the same groups. -/
theorem C10_group_partition (ds : List Detection) :
    (∀ c, detectionGroups ds c = ds.filter (fun d => decide (d.cls = c)))
  ∧ (∀ c, groupByClass ds c = detectionGroups ds c)
  ∧ (∀ d ∈ ds, d ∈ detectionGroups ds d.cls)
  ∧ (∀ (d : Detection) (c : String), d ∈ detectionGroups ds c → c = d.cls ∧ d ∈ ds)
  ∧ Finset.sum (ds.map fun d => d.cls).toFinset
      (fun c => (detectionGroups ds c).length) = ds.length := by
  refine ⟨detectionGroups_eq_filter ds, fun _ => rfl, ?_, ?_, ?_⟩
  · intro d hd
    rw [detectionGroups_eq_filter]
    simp [List.mem_filter, hd]
  · intro d c hd
    rw [detectionGroups_eq_filter] at hd
    have h := List.mem_filter.mp hd
    exact ⟨(of_decide_eq_true h.2).symm, h.1⟩
  · have h : ∀ c, (detectionGroups ds c).length = (ds.map fun d => d.cls).count c := by
      intro c
      rw [detectionGroups_eq_filter]
      exact detection_count_aux ds c
    calc Finset.sum (ds.map fun d => d.cls).toFinset
            (fun c => (detectionGroups ds c).length)
        = Finset.sum (ds.map fun d => d.cls).toFinset
            (fun c => (ds.map fun d => d.cls).count c) := by
          exact Finset.sum_congr rfl (fun c _ => h c)
      _ = (ds.map fun d => d.cls).length := List.sum_toFinset_count_eq_length _
      _ = ds.length := List.length_map _ _

/-- C10 has no hypotheses to witness, but the partition is checkable on a
concrete list; kept as a sanity example. -/
theorem C10_group_example :
    detectionGroups
      [⟨"person", 9/10, (0, 0, 1, 1), false⟩,
       ⟨"car", 8/10, (0, 0, 1, 1), false⟩,
       ⟨"person", 7/10, (0, 0, 1, 1), false⟩] "person"
    = [⟨"person", 9/10, (0, 0, 1, 1), false⟩,
       ⟨"person", 7/10, (0, 0, 1, 1), false⟩] := by
  rw [detectionGroups_eq_filter]
  rfl

/-! ### Claim C5: the detection adapter keeps the top 10 above threshold -/

/-- C5: `detect` returns exactly detections of the input whose confidence
is strictly above the threshold, in descending confidence order, at most
10 of them (all of them when 10 or fewer qualify), and every qualifying
detection it omits has confidence at most that of every returned one. -/
theorem C5_detect_topk (th : ℚ) (raws : List Detection) :
    (∀ d ∈ detect th raws, d ∈ raws ∧ th < d.confidence)
  ∧ (detect th raws).Pairwise (fun a b => b.confidence ≤ a.confidence)
  ∧ (detect th raws).length
      = min 10 (raws.filter fun d => decide (th < d.confidence)).length
  ∧ ∃ rest : List Detection,
      (raws.filter fun d => decide (th < d.confidence)).Perm (detect th raws ++ rest)
    ∧ ∀ a ∈ detect th raws, ∀ b ∈ rest, b.confidence ≤ a.confidence := by
  have htrans : ∀ a b c : Detection,
      (fun a b : Detection => decide (b.confidence ≤ a.confidence)) a b →
      (fun a b : Detection => decide (b.confidence ≤ a.confidence)) b c →
      (fun a b : Detection => decide (b.confidence ≤ a.confidence)) a c := by
    intro a b c h1 h2
    simp only [decide_eq_true_eq] at h1 h2 ⊢
    exact h2.trans h1
  have htotal : ∀ a b : Detection,
      ((fun a b : Detection => decide (b.confidence ≤ a.confidence)) a b ||
       (fun a b : Detection => decide (b.confidence ≤ a.confidence)) b a) := by
    intro a b
    simp only [Bool.or_eq_true, decide_eq_true_eq]
    exact le_total b.confidence a.confidence
  have hsorted := List.sorted_mergeSort htrans htotal
    (raws.filter fun d => decide (th < d.confidence))
  have hsorted' : ((raws.filter fun d => decide (th < d.confidence)).mergeSort
      fun a b : Detection => decide (b.confidence ≤ a.confidence)).Pairwise
      (fun a b : Detection => b.confidence ≤ a.confidence) :=
    hsorted.imp (fun h => of_decide_eq_true h)
  refine ⟨?_, ?_, ?_, ?_⟩
  · intro d hd
    have h1 : d ∈ (raws.filter fun d => decide (th < d.confidence)).mergeSort
        (fun a b : Detection => decide (b.confidence ≤ a.confidence)) :=
      List.mem_of_mem_take hd
    have h2 := List.mem_mergeSort.mp h1
    have h3 := List.mem_filter.mp h2
    exact ⟨h3.1, of_decide_eq_true h3.2⟩
  · exact hsorted'.sublist (List.take_sublist 10 _)
  · unfold detect
    rw [List.length_take, List.length_mergeSort]
  · refine ⟨((raws.filter fun d => decide (th < d.confidence)).mergeSort
        fun a b : Detection => decide (b.confidence ≤ a.confidence)).drop 10, ?_, ?_⟩
    · have hperm := (List.mergeSort_perm
        (raws.filter fun d => decide (th < d.confidence))
        (fun a b : Detection => decide (b.confidence ≤ a.confidence))).symm
      rwa [← List.take_append_drop 10
        ((raws.filter fun d => decide (th < d.confidence)).mergeSort
          fun a b : Detection => decide (b.confidence ≤ a.confidence))] at hperm
    · have hsp := hsorted'
      rw [← List.take_append_drop 10
        ((raws.filter fun d => decide (th < d.confidence)).mergeSort
          fun a b : Detection => decide (b.confidence ≤ a.confidence))] at hsp
      exact fun a ha b hb => (List.pairwise_append.mp hsp).2.2 a ha b hb

/-! ### Claim C7: track ids are never reused within a run -/

theorem trackRun_created_ge (ops : List TrackOp) :
    ∀ st : TrackerState,
      (∀ i ∈ (trackRun st ops).2, st.nextId ≤ i)
    ∧ st.nextId ≤ (trackRun st ops).1.nextId := by
  induction ops with
  | nil => intro st; exact ⟨fun i hi => absurd hi (List.not_mem_nil i), le_refl _⟩
  | cons op ops ih =>
      intro st
      cases op with
      | create =>
          obtain ⟨ih1, ih2⟩ := ih { nextId := st.nextId + 1,
                                    activeIds := st.nextId :: st.activeIds }
          constructor
          · intro i hi
            simp only [trackRun, trackStep] at hi
            rcases List.mem_cons.mp hi with rfl | hmem
            · exact le_refl _
            · exact (Nat.le_succ _).trans (ih1 i hmem)
          · simp only [trackRun, trackStep]
            exact (Nat.le_succ _).trans ih2
      | destroy j =>
          obtain ⟨ih1, ih2⟩ := ih { st with activeIds := st.activeIds.erase j }
          constructor
          · intro i hi
            simp only [trackRun, trackStep] at hi
            exact ih1 i hi
          · simp only [trackRun, trackStep]
            exact ih2

theorem trackRun_created_pairwise (ops : List TrackOp) :
    ∀ st : TrackerState, (trackRun st ops).2.Pairwise (· < ·) := by
  induction ops with
  | nil => intro st; simp [trackRun]
  | cons op ops ih =>
      intro st
      cases op with
      | create =>
          have hge := (trackRun_created_ge ops
            ⟨st.nextId + 1, st.nextId :: st.activeIds⟩).1
          simp only [trackRun, trackStep, List.singleton_append]
          exact List.Pairwise.cons
            (fun i hi => Nat.lt_of_succ_le (hge i hi)) (ih _)
      | destroy j =>
          simp only [trackRun, trackStep, List.nil_append]
          exact ih _

/-- C7 (spec-modelled): over any pipeline run of the tracker, the sequence
of assigned track ids is strictly increasing in creation order, hence any
two tracks created at different times have different ids, and the id of a
destroyed track is never assigned again. -/
theorem C7_track_ids_fresh (st : TrackerState) (ops : List TrackOp) :
    (trackRun st ops).2.Pairwise (· < ·) ∧ (trackRun st ops).2.Nodup :=
  ⟨trackRun_created_pairwise ops st,
   (trackRun_created_pairwise ops st).imp Nat.ne_of_lt⟩

/-! ### Claim C4: at most one safety violation per in-zone episode -/

theorem violRun_inside_bound (poly : List (ℚ × ℚ)) :
    ∀ (obs : List ZoneObs) (flag : Bool),
      (∀ o ∈ obs, pointInPolygon poly o.pos = true) →
      (violRun poly flag obs).2 ≤ if flag then 0 else 1 := by
  intro obs
  induction obs with
  | nil =>
      intro flag _
      cases flag <;> simp [violRun]
  | cons o os ih =>
      intro flag hin
      have ho := hin o (List.mem_cons_self o os)
      have hos : ∀ x ∈ os, pointInPolygon poly x.pos = true :=
        fun x hx => hin x (List.mem_cons_of_mem o hx)
      cases flag with
      | true =>
          have hstep : violStep poly true o = (true, 0) := by
            unfold violStep
            simp [ho]
          simp only [violRun, hstep]
          simpa using ih true hos
      | false =>
          by_cases hm : !o.missing.isEmpty
          · have hstep : violStep poly false o = (true, 1) := by
              unfold violStep
              simp [ho, hm]
            simp only [violRun, hstep]
            have := ih true hos
            simp only [if_true] at this
            simp
            omega
          · have hstep : violStep poly false o = (false, 0) := by
              unfold violStep
              simp only [ho, if_true]
              simp [hm]
            simp only [violRun, hstep]
            simpa using ih false hos

/-- C4 (spec-modelled): for any track trace, during any continuous
interval `mid` in which the track stays inside the work-zone polygon, at
most one SafetyViolation event is emitted — whatever happened before the
interval (`pre`) and whatever the violation flag was at the start of the
trace. -/
theorem C4_violation_once_per_episode (poly : List (ℚ × ℚ)) (b : Bool)
    (pre mid : List ZoneObs)
    (hmid : ∀ o ∈ mid, pointInPolygon poly o.pos = true) :
    (violRun poly (violRun poly b pre).1 mid).2 ≤ 1 := by
  have h := violRun_inside_bound poly mid (violRun poly b pre).1 hmid
  cases hf : (violRun poly b pre).1 <;> rw [hf] at h <;> simp at h <;> omega

/-- A concrete square work zone for witnesses. -/
def sqPolyEx : List (ℚ × ℚ) := [(0, 0), (10, 0), (10, 10), (0, 10)]

/-- C4 witness: a track that sits at the centre of the square work zone
for two frames, missing a helmet both times, yields at most one (in fact
exactly one) violation event. -/
theorem C4_violation_once_per_episode_witness :
    (violRun sqPolyEx (violRun sqPolyEx false []).1
      [⟨(5, 5), ["no_helmet"]⟩, ⟨(5, 5), ["no_helmet"]⟩]).2 ≤ 1 :=
  C4_violation_once_per_episode sqPolyEx false []
    [⟨(5, 5), ["no_helmet"]⟩, ⟨(5, 5), ["no_helmet"]⟩]
    (by
      intro o ho
      rcases List.mem_cons.mp ho with rfl | ho
      · norm_num [pointInPolygon, onSegment, sqPolyEx, List.rotate]
      · rcases List.mem_cons.mp ho with rfl | ho
        · norm_num [pointInPolygon, onSegment, sqPolyEx, List.rotate]
        · cases ho)

/-! ### Claim C3: crossing counters are monotone and drive the displayed count -/

theorem countsLe_refl (a : Counts) : countsLe a a := ⟨le_refl _, le_refl _⟩

theorem countsLe_trans {a b c : Counts} (h1 : countsLe a b) (h2 : countsLe b c) :
    countsLe a c := ⟨le_trans h1.1 h2.1, le_trans h1.2 h2.2⟩

theorem stepTrack_mono (line : EntryLine) (c : Counts) (tr : TrackObs) (ts : ℚ) :
    countsLe c (stepTrack line c tr ts).1 := by
  unfold stepTrack
  by_cases h : crossSide line tr.prev * crossSide line tr.curr < 0
  · by_cases h2 : 0 < crossSide line tr.curr <;>
      simp [h, h2, countsLe]
  · simp [h, countsLe]

theorem stepTrack_cases (line : EntryLine) (c : Counts) (tr : TrackObs) (ts : ℚ) :
    ((stepTrack line c tr ts).1 = c ∧ (stepTrack line c tr ts).2 = none)
  ∨ ∃ e, (stepTrack line c tr ts).2 = some e
      ∧ e.type = "line_crossing"
      ∧ e.in_count = some (stepTrack line c tr ts).1.in_count
      ∧ e.out_count = some (stepTrack line c tr ts).1.out_count := by
  unfold stepTrack
  by_cases h : crossSide line tr.prev * crossSide line tr.curr < 0
  · right
    by_cases h2 : 0 < crossSide line tr.curr <;>
      simp [h, h2]
  · left
    simp [h]

theorem evaluate_mono (line : EntryLine) :
    ∀ (trs : List TrackObs) (c : Counts) (ts : ℚ),
      countsLe c (evaluate line c trs ts).1 := by
  intro trs
  induction trs with
  | nil => intro c ts; exact countsLe_refl c
  | cons tr trs ih =>
      intro c ts
      simp only [evaluate]
      exact countsLe_trans (stepTrack_mono line c tr ts)
        (ih (stepTrack line c tr ts).1 ts)

theorem evaluate_nochange (line : EntryLine) :
    ∀ (trs : List TrackObs) (c : Counts) (ts : ℚ),
      (∀ tr ∈ trs, ¬ crossSide line tr.prev * crossSide line tr.curr < 0) →
      evaluate line c trs ts = (c, []) := by
  intro trs
  induction trs with
  | nil => intro c ts _; rfl
  | cons tr trs ih =>
      intro c ts h
      have h1 := h tr (List.mem_cons_self tr trs)
      have hst : stepTrack line c tr ts = (c, none) := by
        unfold stepTrack
        simp [h1]
      simp [evaluate, hst,
        ih c ts (fun x hx => h x (List.mem_cons_of_mem tr hx))]

theorem evaluate_change (line : EntryLine) (c : Counts) (trs : List TrackObs)
    (ts : ℚ) (h : (evaluate line c trs ts).1 ≠ c) :
    ∃ tr ∈ trs, crossSide line tr.prev * crossSide line tr.curr < 0 := by
  by_contra hc
  push_neg at hc
  exact h (by
    rw [evaluate_nochange line trs c ts
      (fun tr htr => not_lt.mpr (hc tr htr))])

theorem evaluate_events (line : EntryLine) :
    ∀ (trs : List TrackObs) (c : Counts) (ts : ℚ),
      (∀ e ∈ (evaluate line c trs ts).2, e.type = "line_crossing")
    ∧ ((evaluate line c trs ts).2 = [] → (evaluate line c trs ts).1 = c)
    ∧ (∀ e, (evaluate line c trs ts).2.getLast? = some e →
        e.in_count = some (evaluate line c trs ts).1.in_count
        ∧ e.out_count = some (evaluate line c trs ts).1.out_count) := by
  intro trs
  induction trs with
  | nil =>
      intro c ts
      refine ⟨by simp [evaluate], fun _ => rfl, by simp [evaluate]⟩
  | cons tr trs ih =>
      intro c ts
      rcases stepTrack_cases line c tr ts with ⟨hc1, hn⟩ | ⟨e0, hs, hty, hin, hout⟩
      · have heq : evaluate line c (tr :: trs) ts
            = evaluate line (stepTrack line c tr ts).1 trs ts := by
          simp [evaluate, hn]
        rw [heq, hc1]
        exact ih c ts
      · have hev : (evaluate line c (tr :: trs) ts).2
            = e0 :: (evaluate line (stepTrack line c tr ts).1 trs ts).2 := by
          simp [evaluate, hs]
        have hct : (evaluate line c (tr :: trs) ts).1
            = (evaluate line (stepTrack line c tr ts).1 trs ts).1 := by
          simp [evaluate]
        obtain ⟨ihty, ihnil, ihlast⟩ := ih (stepTrack line c tr ts).1 ts
        refine ⟨?_, ?_, ?_⟩
        · intro e he
          rw [hev] at he
          rcases List.mem_cons.mp he with rfl | hmem
          · exact hty
          · exact ihty e hmem
        · intro hnil
          rw [hev] at hnil
          cases hnil
        · intro e hlast
          rw [hev] at hlast
          rcases hr : (evaluate line (stepTrack line c tr ts).1 trs ts).2
            with _ | ⟨x, xs⟩
          · rw [hr] at hlast
            simp only [List.getLast?_singleton, Option.some.injEq] at hlast
            subst hlast
            have hcts := ihnil hr
            rw [hct, hcts]
            exact ⟨hin, hout⟩
          · rw [hr, List.getLast?_cons_cons] at hlast
            have := ihlast e (by rw [hr]; exact hlast)
            rw [hct]
            exact this

theorem zoneApplyEvents_peopleCount_carries (s : ZoneState)
    (evs : List TrackingEvent) (cnt : Counts)
    (hall : ∀ e ∈ evs, e.type = "line_crossing")
    (hlast : ∀ e, evs.getLast? = some e →
      e.in_count = some cnt.in_count ∧ e.out_count = some cnt.out_count)
    (hne : evs ≠ []) :
    (zoneApplyEvents s evs).peopleCount = cnt := by
  have hf : evs.filter (fun e => e.type == "line_crossing") = evs := by
    rw [List.filter_eq_self]
    intro e he
    simpa using hall e he
  unfold zoneApplyEvents
  rw [hf]
  cases hg : evs.getLast? with
  | none => exact absurd (List.getLast?_eq_none_iff.mp hg) hne
  | some e =>
      obtain ⟨h1, h2⟩ := hlast e hg
      simp [h1, h2]

theorem zoneOnMessage_unthrottled_pc (st : ZoneState) (msg : VideoMessage)
    (fps ws : Bool) (hv : msg.type = "video_frame") :
    (zoneOnMessage st msg false fps ws).1.peopleCount = st.peopleCount := by
  unfold zoneOnMessage
  simp [hv, zoneFrameTick_peopleCount]

theorem zoneOnMessage_throttled_pc (st : ZoneState) (msg : VideoMessage)
    (fps ws : Bool) (hv : msg.type = "video_frame") :
    (zoneOnMessage st msg true fps ws).1.peopleCount
      = (zoneThrottled
          { st with imgSrc := some ("data:image/jpeg;base64," ++ msg.frame) }
          msg).peopleCount := by
  unfold zoneOnMessage
  simp [hv, zoneFrameTick_peopleCount]

theorem zoneThrottled_frameMessage (s : ZoneState) (ts : ℚ)
    (evs : List TrackingEvent) :
    zoneThrottled s (frameMessage ts evs)
      = if 0 < evs.length
          then zoneApplyEvents
            { s with detections := [], lastUpdate := some ts } evs
          else { s with detections := [], lastUpdate := some ts } := rfl

theorem pipe_step_pc (line : EntryLine) (c : Counts) (st : ZoneState)
    (tracks : List TrackObs) (ts : ℚ) (thr fps ws : Bool) :
    ((zoneOnMessage st (frameMessage ts (evaluate line c tracks ts).2)
        thr fps ws).1.peopleCount = st.peopleCount)
  ∨ ((zoneOnMessage st (frameMessage ts (evaluate line c tracks ts).2)
        thr fps ws).1.peopleCount = (evaluate line c tracks ts).1) := by
  cases thr with
  | false => exact Or.inl (zoneOnMessage_unthrottled_pc _ _ _ _ rfl)
  | true =>
      rw [zoneOnMessage_throttled_pc _ _ _ _ rfl, zoneThrottled_frameMessage]
      by_cases hne : (evaluate line c tracks ts).2 = []
      · left
        rw [hne]
        simp
      · right
        have hlen : 0 < (evaluate line c tracks ts).2.length :=
          List.length_pos.mpr hne
        rw [if_pos hlen]
        obtain ⟨hall, _, hlast⟩ := evaluate_events line tracks c ts
        exact zoneApplyEvents_peopleCount_carries _ _ _ hall hlast hne

theorem pipeRun_chains (line : EntryLine) :
    ∀ (frames : List FrameIn) (c : Counts) (st : ZoneState),
      countsLe st.peopleCount c →
      List.Chain' countsLe (c :: (pipeRun line c st frames).map Prod.fst)
    ∧ List.Chain' countsLe
        (st.peopleCount :: (pipeRun line c st frames).map fun p => p.2.peopleCount) := by
  intro frames
  induction frames with
  | nil => intro c st _; simp [pipeRun]
  | cons f fs ih =>
      intro c st h
      have hmono := evaluate_mono line f.tracks c f.ts
      have hpc := pipe_step_pc line c st f.tracks f.ts
        f.throttleOpen f.fpsElapsed f.wsOpen
      have hinv' : countsLe
          (zoneOnMessage st (frameMessage f.ts (evaluate line c f.tracks f.ts).2)
            f.throttleOpen f.fpsElapsed f.wsOpen).1.peopleCount
          (evaluate line c f.tracks f.ts).1 := by
        rcases hpc with hp | hp <;> rw [hp]
        · exact countsLe_trans h hmono
        · exact countsLe_refl _
      have hstep : countsLe st.peopleCount
          (zoneOnMessage st (frameMessage f.ts (evaluate line c f.tracks f.ts).2)
            f.throttleOpen f.fpsElapsed f.wsOpen).1.peopleCount := by
        rcases hpc with hp | hp <;> rw [hp]
        · exact countsLe_refl _
        · exact countsLe_trans h hmono
      obtain ⟨ih1, ih2⟩ := ih (evaluate line c f.tracks f.ts).1
        (zoneOnMessage st (frameMessage f.ts (evaluate line c f.tracks f.ts).2)
          f.throttleOpen f.fpsElapsed f.wsOpen).1 hinv'
      constructor
      · simp only [pipeRun, List.map_cons]
        exact List.chain'_cons.mpr ⟨hmono, ih1⟩
      · simp only [pipeRun, List.map_cons]
        exact List.chain'_cons.mpr ⟨hstep, ih2⟩

/-- C3 (spec-modelled engine, real client): over any frame sequence
through the composed pipeline, (1) the zone engine's `in_count` and
`out_count` never decrease, (2) a frame changes the counters only when
the crossing test (sign of the cross product of the entry-line vector
with the vector to the track centroid) changes sign for some track
between its previous and current centroid, and (3) the people count
displayed by the zone-aware client, driven by the last `line_crossing`
event of each message, never decreases over the messages of one
connection. -/
theorem C3_counts_monotone (line : EntryLine) (c : Counts) (st : ZoneState)
    (frames : List FrameIn) (hinv : countsLe st.peopleCount c) :
    List.Chain' countsLe (c :: (pipeRun line c st frames).map Prod.fst)
  ∧ (∀ (c' : Counts) (trs : List TrackObs) (ts : ℚ),
      (evaluate line c' trs ts).1 ≠ c' →
      ∃ tr ∈ trs, crossSide line tr.prev * crossSide line tr.curr < 0)
  ∧ List.Chain' countsLe
      (st.peopleCount :: (pipeRun line c st frames).map fun p => p.2.peopleCount) := by
  obtain ⟨h1, h2⟩ := pipeRun_chains line frames c st hinv
  exact ⟨h1, fun c' trs ts hch => evaluate_change line c' trs ts hch, h2⟩

/-- A concrete entry line and a one-frame trace in which track 7 crosses
it, for the C3 witness. -/
def lineEx : EntryLine := ⟨(0, 0), (10, 0)⟩

/-- One frame in which track 7 moves from below to above the entry line,
with the throttled client update running. -/
def framesEx : List FrameIn := [⟨[⟨7, (5, -1), (5, 1)⟩], 1, true, false, true⟩]

/-- C3 witness: the monotone chain at a concrete crossing trace, with the
initial-display hypothesis discharged on the initial client state. -/
theorem C3_counts_monotone_witness :
    List.Chain' countsLe
      (Counts.mk 0 0 :: (pipeRun lineEx ⟨0, 0⟩ zoneInit framesEx).map Prod.fst) :=
  (C3_counts_monotone lineEx ⟨0, 0⟩ zoneInit framesEx (by decide)).1
